import Mathlib

/-!
Verification of the heirsafe-ui on-chain state reconciliation and countdown
engine, shallowly embedded from the TypeScript sources.

Modelling conventions used throughout:
* Ethereum addresses are represented by their 160-bit numeric value as a `Nat`;
  the zero address is `0`.  The sources compare addresses with
  `a.toLowerCase() === b.toLowerCase()`, which is exactly equality of the
  underlying numeric value, so address comparison becomes `Nat` equality.
* A user-supplied address string is an `Option Nat`: `none` models a string
  rejected by `ethers.isAddress`, `some v` a well-formed address of value `v`
  (`some 0` is the well-formed zero address `ethers.ZeroAddress`).
* Timestamps are integer seconds (`Nat` for chain/wall-clock samples, `Int`
  where the source mixes possibly-negative arithmetic).
* JavaScript `throw`/`catch` becomes explicit result constructors.
-/

namespace OwnersView

/-! Section: row derivation in `src/components/OwnersView.tsx` (part_009)

Embeds the per-row derived values computed inside the `rows.map` callback:

```
const signerIsBeneficiary =
  signerAddr && r.beneficiary !== ethers.ZeroAddress &&
  signerAddr.toLowerCase() === r.beneficiary.toLowerCase();
const tsNum = Number(r.ts);
const localFuture = nowSec < tsNum;
const onChainReady = chainTs >= tsNum;
const disableClaim =
  !canWriteGlobally || !signerIsBeneficiary || !onChainReady || rowBusy;
```

`signer` is the connected wallet address (`none` when `signerAddr` is the
empty string, i.e. no wallet connected). -/

/-- Source: `signerAddr && r.beneficiary !== ZeroAddress && signerAddr.toLowerCase()
    === r.beneficiary.toLowerCase()` from OwnersView. -/
def signerIsBeneficiary (signer : Option Nat) (beneficiary : Nat) : Bool :=
  match signer with
  | none => false
  | some s => beneficiary != 0 && s == beneficiary

/-- Source: `canWriteGlobally = !!readProvider && ethers.isAddress(moduleAddr) &&
    (enabled ?? true) && !isSafeApp` from OwnersView. -/
def canWriteGlobally (providerOk moduleAddrValid : Bool) (enabled : Option Bool)
    (isSafeApp : Bool) : Bool :=
  providerOk && moduleAddrValid && enabled.getD true && !isSafeApp

/-- Source: `onChainReady = chainTs >= tsNum` from OwnersView. -/
def onChainReady (chainTs ts : Nat) : Bool :=
  decide (ts ≤ chainTs)

/-- Source: `localFuture = nowSec < tsNum` from OwnersView. -/
def localFuture (nowSec ts : Nat) : Bool :=
  decide (nowSec < ts)

/-- The inputs of one row derivation inside `rows.map` in OwnersView:
    the global write gate, the per-owner busy flag, the connected signer,
    and the row fields together with the two clocks. -/
structure RowCtx where
  canWrite : Bool
  busy : Bool
  signer : Option Nat
  beneficiary : Nat
  ts : Nat
  nowSec : Nat
  chainTs : Nat
deriving DecidableEq, Repr

/-- Source: `disableClaim = !canWriteGlobally || !signerIsBeneficiary || !onChainReady
    || rowBusy` from OwnersView; note that it does not read `nowSec`. -/
def disableClaim (c : RowCtx) : Bool :=
  !c.canWrite || !signerIsBeneficiary c.signer c.beneficiary ||
    !onChainReady c.chainTs c.ts || c.busy

/-- Source: `showRemove = r.beneficiary !== ethers.ZeroAddress` from OwnersView. -/
def showRemove (beneficiary : Nat) : Bool :=
  beneficiary != 0

/-- Source: `showSet = r.beneficiary === ethers.ZeroAddress` from OwnersView. -/
def showSet (beneficiary : Nat) : Bool :=
  beneficiary == 0

/-- The four visual states of the activation cell of a row. -/
inductive DisplayState where
  | Unset
  | CountingDown
  | Synchronizing
  | Available
deriving DecidableEq, Repr

/-- The activation cell of OwnersView: rendered only when `r.ts !== 0n`, and
    then `localFuture ? <Countdown/> : onChainReady ? <AvailableBadge/> :
    <SyncBadge/>`. -/
def displayState (ts nowSec chainTs : Nat) : DisplayState :=
  if ts = 0 then .Unset
  else if localFuture nowSec ts then .CountingDown
  else if onChainReady chainTs ts then .Available
  else .Synchronizing

/-- C2: with writing allowed (`canWriteGlobally` true and no action in flight
    on the row) and the connected caller being the configured beneficiary, the
    Claim action is enabled iff the last-known chain timestamp has reached the
    activation timestamp, and the decision never reads the local wall clock. -/
theorem claim_enabled_iff_chain_reached (c : RowCtx)
    (hW : c.canWrite = true)
    (hB : signerIsBeneficiary c.signer c.beneficiary = true)
    (hBusy : c.busy = false) :
    (disableClaim c = false ↔ c.ts ≤ c.chainTs) ∧
      ∀ n : Nat, disableClaim { c with nowSec := n } = disableClaim c := by
  constructor
  · simp [disableClaim, hW, hB, hBusy, onChainReady]
  · intro n
    rfl

/-- Witness for `claim_enabled_iff_chain_reached` at a concrete row. -/
theorem claim_enabled_iff_chain_reached_witness :
    (disableClaim ⟨true, false, some 7, 7, 100, 0, 100⟩ = false ↔
        (100 : Nat) ≤ 100) ∧
      ∀ n : Nat, disableClaim ⟨true, false, some 7, 7, 100, n, 100⟩ =
        disableClaim ⟨true, false, some 7, 7, 100, 0, 100⟩ :=
  claim_enabled_iff_chain_reached ⟨true, false, some 7, 7, 100, 0, 100⟩
    (by decide) (by decide) (by decide)

/-- C3 (code bug): a row with a non-zero beneficiary and zero activation
    timestamp is treated as chain-ready — `onChainReady = chainTs >= 0` holds
    for every chain timestamp, so whenever writing is allowed and the
    connected caller is the (non-zero) beneficiary, the Claim button is
    enabled, for every local wall clock value and every chain timestamp. -/
theorem zero_timestamp_claim_enabled :
    ∀ nowSec chainTs : Nat,
      disableClaim ⟨true, false, some 5, 5, 0, nowSec, chainTs⟩ = false ∧
        signerIsBeneficiary (some 5) 5 = true := by
  intro nowSec chainTs
  refine ⟨?_, by decide⟩
  simp [disableClaim, signerIsBeneficiary, onChainReady]

/-- C4 counterexample: with activation 100, local clock 50 and chain timestamp
    150, the code displays CountingDown although `ts ≤ chainTs`; the claimed
    clause "Available exactly when activationTimestamp ≤ lastKnownChainTimestamp"
    is false at this input. -/
theorem display_available_clause_fails :
    displayState 100 50 150 = DisplayState.CountingDown ∧
      ¬(displayState 100 50 150 = DisplayState.Available ↔ (100 : Nat) ≤ 150) := by
  decide

/-- C4 amended: for a non-zero activation timestamp the display state is a pure
    function of (ts, nowSec, chainTs) with CountingDown exactly when
    `nowSec < ts`, Synchronizing exactly when `ts ≤ nowSec ∧ chainTs < ts`, and
    Available exactly when `ts ≤ nowSec ∧ ts ≤ chainTs`. -/
theorem display_state_characterization (ts nowSec chainTs : Nat) (h : ts ≠ 0) :
    (displayState ts nowSec chainTs = .CountingDown ↔ nowSec < ts) ∧
      (displayState ts nowSec chainTs = .Synchronizing ↔
        ts ≤ nowSec ∧ chainTs < ts) ∧
      (displayState ts nowSec chainTs = .Available ↔
        ts ≤ nowSec ∧ ts ≤ chainTs) := by
  unfold displayState localFuture onChainReady
  split
  · omega
  · by_cases h1 : nowSec < ts <;> by_cases h2 : ts ≤ chainTs <;>
      simp [h1, h2] <;> omega

/-- Witness for `display_state_characterization` at ts 100, now 200, chain 90. -/
theorem display_state_characterization_witness :
    (100 : Nat) ≠ 0 ∧
      ((displayState 100 200 90 = .CountingDown ↔ (200 : Nat) < 100) ∧
        (displayState 100 200 90 = .Synchronizing ↔
          (100 : Nat) ≤ 200 ∧ (90 : Nat) < 100) ∧
        (displayState 100 200 90 = .Available ↔
          (100 : Nat) ≤ 200 ∧ (100 : Nat) ≤ 90)) :=
  ⟨by decide, display_state_characterization 100 200 90 (by decide)⟩

end OwnersView

namespace OwnersView

/-! Section: action handlers of OwnersView (part_009)

`doSet`, `doRemove` run client-side precondition checks and then submit a
wallet transaction.  A thrown error before the contract call is a local
rejection (caught by the surrounding `try`, surfaced as a toast, no
transaction submitted).  Inputs:

* `walletPresent` — `(window as any).ethereum` is defined;
* `signer` — result of `bp.getSigner()` (`none` when it throws);
* `beneficiaryInput` — the typed beneficiary string (`none` when
  `ethers.isAddress` rejects it, `some v` for a well-formed address `v`);
* `parsedTs` — `localInputToUtcSeconds(whenLocal)` (`none` when `Date.parse`
  fails and the helper throws);
* `nowSec` — `Math.floor(Date.now() / 1000)`. -/

/-- Outcome of `doSet`: a local rejection before any submission, or the
    submission of `setBeneficiary(beneficiary, ts)`. -/
inductive SetResult where
  | rejected (msg : String)
  | submitted (beneficiary : Nat) (ts : Int)
deriving DecidableEq, Repr

/-- Embedding of `doSet(owner, beneficiary, whenLocal)` from OwnersView, lines 261-288:
    checks wallet presence, signer = owner, `ethers.isAddress(beneficiary)`,
    a parseable date, and `ts > now`, in source order, then submits. -/
def doSet (walletPresent : Bool) (signer : Option Nat) (owner : Nat)
    (beneficiaryInput : Option Nat) (parsedTs : Option Int) (nowSec : Int) :
    SetResult :=
  if !walletPresent then .rejected "No wallet detected"
  else
    match signer with
    | none => .rejected "No signer available"
    | some s =>
      if s != owner then .rejected ("Connect as owner " ++ toString owner)
      else
        match beneficiaryInput with
        | none => .rejected "Invalid beneficiary"
        | some b =>
          match parsedTs with
          | none => .rejected "Enter a valid date & time."
          | some ts =>
            if ts ≤ nowSec then .rejected "Activation must be in the future"
            else .submitted b ts

/-- C7 counterexample: the zero address is accepted by `ethers.isAddress`, and
    `doSet` performs no non-zero check, so a set with beneficiary = the zero
    address and a future timestamp is submitted rather than rejected locally. -/
theorem doSet_zero_beneficiary_submits :
    doSet true (some 5) 5 (some 0) (some 100) 50 = SetResult.submitted 0 100 := by
  decide

/-- C7 amended: `doSet` submits a transaction iff the wallet is present, the
    connected signer equals the owner, the beneficiary is a well-formed address
    (the zero address included — no non-zero check is performed), and the
    parsed activation timestamp is strictly in the future; in every other case
    it fails locally with no submission. -/
theorem doSet_submit_characterization (walletPresent : Bool)
    (signer : Option Nat) (owner : Nat) (beneficiaryInput : Option Nat)
    (parsedTs : Option Int) (nowSec : Int) :
    (∃ b ts, doSet walletPresent signer owner beneficiaryInput parsedTs nowSec =
        .submitted b ts) ↔
      walletPresent = true ∧ signer = some owner ∧
        beneficiaryInput.isSome = true ∧
        ∃ ts, parsedTs = some ts ∧ nowSec < ts := by
  unfold doSet
  rcases walletPresent <;> rcases signer with _ | s <;>
    rcases beneficiaryInput with _ | b <;> rcases parsedTs with _ | ts <;>
    dsimp only <;> split_ifs <;> simp_all [bne_iff_ne]

/-- Outcome of `doRemove`: user cancelled the confirm dialog, local rejection,
    or submission of `removeBeneficiary()` (interface exposes it) or the
    fallback `setBeneficiary(ZeroAddress, 0)`. -/
inductive RemoveResult where
  | cancelled
  | rejected (msg : String)
  | submittedRemove
  | submittedSetZero
deriving DecidableEq, Repr

/-- Embedding of `doRemove(owner)` from OwnersView, lines 318-348.  The handler receives
    only the owner address; the row's current beneficiary/timestamp are not
    consulted at all (there is no configuration precondition check): after the
    confirm dialog, wallet and caller checks, it always submits. -/
def doRemove (confirmOk walletPresent : Bool) (signer : Option Nat)
    (owner : Nat) (hasRemoveFn : Bool) : RemoveResult :=
  if !confirmOk then .cancelled
  else if !walletPresent then .rejected "No wallet detected"
  else
    match signer with
    | none => .rejected "No signer available"
    | some s =>
      if s != owner then .rejected ("Connect as owner " ++ toString owner)
      else if hasRemoveFn then .submittedRemove
      else .submittedSetZero

/-- C9 counterexample: invoking `doRemove` with the caller connected as the
    owner submits a `removeBeneficiary()` transaction unconditionally — the
    stored configuration (in particular an unset zero beneficiary / zero
    timestamp) is never consulted, so nothing is rejected locally. -/
theorem doRemove_unset_config_submits :
    doRemove true true (some 5) 5 true = RemoveResult.submittedRemove := by
  decide

/-- C9 amended: the UI offers no Remove action for an owner with an unset
    configuration (the button is rendered only when the beneficiary is
    non-zero), and the `doRemove` handler itself performs no configuration
    check: once the confirm dialog is accepted, the wallet is present and the
    caller equals the owner, it submits a transaction regardless of the stored
    configuration. -/
theorem remove_hidden_for_unset :
    showRemove 0 = false ∧
      ∀ (owner : Nat) (hasRemoveFn : Bool),
        doRemove true true (some owner) owner hasRemoveFn =
          if hasRemoveFn then .submittedRemove else .submittedSetZero := by
  refine ⟨by decide, ?_⟩
  intro owner hasRemoveFn
  simp [doRemove]

end OwnersView

namespace InstallModule

/-! Section: `enableStandaloneSmart` in `src/components/InstallModule.tsx`

The standalone enable flow reads the Safe owner list and threshold, then:

```
if (threshold === 1n && isOwner) {
  ... build enableModule(predictedModule) call data,
  ... submit safe.execTransaction(to = safeAddr, data, ...)
} else {
  setInstructions([..., `3) Contract: ${safeAddr}`,
    "4) Function: enableModule(address)",
    `5) Parameter: ${predictedModule}`, ...].join("\n"))
}
```

with `isOwner = ownersLc.includes(signerAddr)` after lower-casing. -/

/-- Outcome of the standalone enable flow: either a submitted
    `execTransaction` whose inner call is `enableModule(param)` against
    `to`, or an emitted instruction payload naming the contract to call,
    the function, and the parameter. -/
inductive EnableResult where
  | submittedExec (txTo : Nat) (innerFn : String) (param : Nat)
  | instructions (contract : Nat) (fn : String) (param : Nat)
deriving DecidableEq, Repr

/-- Embedding of `enableStandaloneSmart` from InstallModule.tsx, lines 112-215 (the
    decision between direct execution and the instruction payload). -/
def enableStandaloneSmart (owners : List Nat) (threshold : Nat) (signer : Nat)
    (safeAddr predictedModule : Nat) : EnableResult :=
  if threshold = 1 ∧ signer ∈ owners then
    .submittedExec safeAddr "enableModule" predictedModule
  else
    .instructions safeAddr "enableModule(address)" predictedModule

/-- C6: whenever the approval threshold exceeds 1 or the connected caller is
    not a recognized owner, the standalone enable flow submits nothing and
    emits the instruction payload naming the Safe contract address, the
    enableModule function and the predicted module address as parameter. -/
theorem enable_multisig_emits_instructions (owners : List Nat) (threshold : Nat)
    (signer safeAddr predictedModule : Nat)
    (h : 1 < threshold ∨ signer ∉ owners) :
    enableStandaloneSmart owners threshold signer safeAddr predictedModule =
      .instructions safeAddr "enableModule(address)" predictedModule := by
  unfold enableStandaloneSmart
  rcases h with h | h
  · rw [if_neg]
    rintro ⟨h1, -⟩
    omega
  · rw [if_neg]
    rintro ⟨-, h2⟩
    exact h h2

/-- Witness for `enable_multisig_emits_instructions`: threshold 2. -/
theorem enable_multisig_emits_instructions_witness :
    ((1 : Nat) < 2 ∨ (3 : Nat) ∉ [(3 : Nat)]) ∧
      enableStandaloneSmart [3] 2 3 11 12 =
        EnableResult.instructions 11 "enableModule(address)" 12 :=
  ⟨Or.inl (by decide),
    enable_multisig_emits_instructions [3] 2 3 11 12 (Or.inl (by decide))⟩

end InstallModule

namespace ModuleInstall

/-! Section: `isModuleEnabled` in `src/lib/moduleInstall.ts` (part_004)

```
let cursor = SENTINEL;
const PAGE = 50n;
while (true) {
  const [mods, next] = await c.getModulesPaginated(cursor, PAGE);
  if (mods.some((m) => m.toLowerCase() === module.toLowerCase())) return true;
  if (next === SENTINEL || mods.length === 0) return false;
  cursor = next;
}
```

For a Safe whose paginated module list is well-formed — each page carries at
most `pageSize` modules, pages partition the module list in order, and `next`
returns to the sentinel exactly after the last page — the traversal is the
chunked walk of the full module list: page `k` is
`(modules.drop (k*pageSize)).take pageSize`, and `next === SENTINEL` holds
exactly when at most `pageSize` elements remained.  The loop below recurses on
the remaining suffix and also counts the loop iterations performed. -/

/-- One well-formed run of the `while` loop of `isModuleEnabled`, on the
    suffix of the module list not yet visited.  Returns the result together
    with the number of loop iterations executed. -/
def isModuleEnabledLoop (target pageSize : Nat) (rest : List Nat) :
    Bool × Nat :=
  if h1 : target ∈ rest.take pageSize then (true, 1)
  else if h2 : rest.length ≤ pageSize ∨ rest.take pageSize = [] then (false, 1)
  else
    let r := isModuleEnabledLoop target pageSize (rest.drop pageSize)
    (r.1, r.2 + 1)
termination_by rest.length
decreasing_by
  push_neg at h2
  have hp : pageSize ≠ 0 := by
    intro h0
    exact h2.2 (by simp [h0])
  simp only [List.length_drop]
  omega

/-- Embedding of `isModuleEnabled(provider, safe, module)` with the source page size
    `PAGE = 50`, on a well-formed module list. -/
def isModuleEnabled (modules : List Nat) (target : Nat) : Bool :=
  (isModuleEnabledLoop target 50 modules).1

/-- Correctness and iteration bound of the loop, by strong induction on the
    length of the unvisited suffix. -/
theorem isModuleEnabledLoop_spec (target pageSize : Nat) (hp : 0 < pageSize) :
    ∀ (n : Nat) (l : List Nat), l.length ≤ n →
      ((isModuleEnabledLoop target pageSize l).1 = true ↔ target ∈ l) ∧
        (isModuleEnabledLoop target pageSize l).2 ≤
          (l.length + pageSize - 1) / pageSize + 1 := by
  intro n
  induction n with
  | zero =>
    intro l hl
    have hnil : l = [] := List.eq_nil_of_length_eq_zero (Nat.le_zero.mp hl)
    subst hnil
    rw [isModuleEnabledLoop]
    simp
  | succ n ih =>
    intro l hl
    rw [isModuleEnabledLoop]
    by_cases h1 : target ∈ l.take pageSize
    · rw [dif_pos h1]
      exact ⟨by simp [List.mem_of_mem_take h1],
        Nat.succ_le_succ (Nat.zero_le _)⟩
    · rw [dif_neg h1]
      by_cases h2 : l.length ≤ pageSize ∨ l.take pageSize = []
      · rw [dif_pos h2]
        refine ⟨?_, Nat.succ_le_succ (Nat.zero_le _)⟩
        simp only [Bool.false_eq_true, false_iff]
        rcases h2 with h2 | h2
        · rwa [List.take_of_length_le h2] at h1
        · rcases List.take_eq_nil_iff.mp h2 with h | h
          · omega
          · simp [h]
      · rw [dif_neg h2]
        push_neg at h2
        obtain ⟨h2l, h2r⟩ := h2
        dsimp only
        have hlen : (l.drop pageSize).length ≤ n := by
          simp only [List.length_drop]
          omega
        obtain ⟨ih1, ih2⟩ := ih (l.drop pageSize) hlen
        constructor
        · rw [ih1]
          have hsplit : target ∈ l ↔
              target ∈ l.take pageSize ∨ target ∈ l.drop pageSize := by
            conv_lhs => rw [← List.take_append_drop pageSize l]
            exact List.mem_append
          rw [hsplit]
          simp [h1]
        · simp only [List.length_drop] at ih2
          have hplus : l.length + pageSize - 1 = (l.length - 1) + pageSize := by
            omega
          have hminus : l.length - pageSize + pageSize - 1 = l.length - 1 := by
            omega
          rw [hminus] at ih2
          rw [hplus, Nat.add_div_right _ hp]
          omega

/-- C8: on a well-formed paginated module list, the enabled check returns true
    iff the target address occurs in the list, the traversal performs at most
    `ceil(totalModules / pageSize) + 1` iterations, and with the source page
    size 50 `isModuleEnabled` decides membership. -/
theorem isModuleEnabled_pagination (modules : List Nat)
    (target pageSize : Nat) (hp : 0 < pageSize) :
    ((isModuleEnabledLoop target pageSize modules).1 = true ↔
        target ∈ modules) ∧
      (isModuleEnabledLoop target pageSize modules).2 ≤
        (modules.length + pageSize - 1) / pageSize + 1 ∧
      (isModuleEnabled modules target = true ↔ target ∈ modules) := by
  obtain ⟨h1, h2⟩ :=
    isModuleEnabledLoop_spec target pageSize hp modules.length modules le_rfl
  obtain ⟨h3, -⟩ :=
    isModuleEnabledLoop_spec target 50 (by omega) modules.length modules le_rfl
  exact ⟨h1, h2, h3⟩

/-- Witness for `isModuleEnabled_pagination` on a three-module list with
    page size 2. -/
theorem isModuleEnabled_pagination_witness :
    (0 : Nat) < 2 ∧
      (((isModuleEnabledLoop 2 2 [1, 2, 3]).1 = true ↔ 2 ∈ [1, 2, 3]) ∧
        (isModuleEnabledLoop 2 2 [1, 2, 3]).2 ≤ (3 + 2 - 1) / 2 + 1 ∧
        (isModuleEnabled [1, 2, 3] 2 = true ↔ 2 ∈ [1, 2, 3])) :=
  ⟨by decide, isModuleEnabled_pagination [1, 2, 3] 2 2 (by decide)⟩

end ModuleInstall

namespace TimeLib

/-! Section: `toLocalInputValue` and `localInputToUtcSeconds` in `src/lib/time.ts`

`toLocalInputValue(ts)` renders the non-zero UTC-seconds timestamp `ts` as the
local civil datetime string `YYYY-MM-DDTHH:mm` (no seconds field), and
`localInputToUtcSeconds(v)` parses such a string as local time and returns
`Math.floor(Date.parse(v) / 1000)`.

Embedding: the local calendar is a fixed offset of `tzOffMinutes` minutes from
UTC (JavaScript timezone offsets are whole minutes).  A `YYYY-MM-DDTHH:mm`
string is in calendar bijection with its local minute index — the number of
whole minutes between the Unix epoch (read on the local clock) and the moment
it denotes — so the string is represented by that minute index.  Building the
string from a `Date` truncates the seconds, i.e. floor-divides the local
seconds count by 60; parsing maps minute index `m` back to UTC seconds
`m * 60 - tzOffMinutes * 60`. -/

/-- Embedding of `toLocalInputValue` from time.ts: empty output for `ts = 0`, otherwise the
    local civil datetime at minute precision, represented by its local minute
    index. -/
def toLocalInputValue (tzOffMinutes ts : Int) : Option Int :=
  if ts = 0 then none
  else some ((ts + tzOffMinutes * 60) / 60)

/-- Embedding of `localInputToUtcSeconds` from time.ts: parse the local minute index back
    to UTC seconds. -/
def localInputToUtcSeconds (tzOffMinutes v : Int) : Int :=
  v * 60 - tzOffMinutes * 60

/-- C10: for non-zero `ts`, the round trip through the local datetime input
    returns `ts` truncated down to the whole minute, hence exactly `ts`
    whenever `ts` lies on a whole minute. -/
theorem local_input_round_trip (tz ts : Int) (h : ts ≠ 0) :
    ∃ m, toLocalInputValue tz ts = some m ∧
      localInputToUtcSeconds tz m = ts - ts % 60 ∧
      (ts % 60 = 0 → localInputToUtcSeconds tz m = ts) := by
  refine ⟨(ts + tz * 60) / 60, by simp [toLocalInputValue, h], ?_, ?_⟩
  · unfold localInputToUtcSeconds
    omega
  · intro h60
    unfold localInputToUtcSeconds
    omega

/-- Witness for `local_input_round_trip` at UTC+05:30 (offset -330 in the
    JavaScript sign convention) and ts = 7260 = 121 minutes. -/
theorem local_input_round_trip_witness :
    (7260 : Int) ≠ 0 ∧
      ∃ m, toLocalInputValue (-330) 7260 = some m ∧
        localInputToUtcSeconds (-330) m = 7260 - (7260 : Int) % 60 ∧
        ((7260 : Int) % 60 = 0 → localInputToUtcSeconds (-330) m = 7260) :=
  ⟨by decide, local_input_round_trip (-330) 7260 (by decide)⟩

end TimeLib

namespace AppMain

/-! Section: the reconciliation scope controller in `src/App.tsx` (part_014)

```
const scopeRef = useRef(0);
const bumpScope = useCallback(() => ++scopeRef.current, []);
const getScope = useCallback(() => scopeRef.current, []);
```

`bumpScope` is invoked exactly once by each triggering event: the wallet
`chainChanged` handler, the effect that fires on any `chainId` change, the
user Refresh button, and the post-transaction `onChanged` re-check. -/

/-- Source: `useRef(0)`, the scope counter at process start. -/
def initialScope : Nat := 0

/-- Source: `bumpScope = () => ++scopeRef.current`. -/
def bumpScope (s : Nat) : Nat := s + 1

/-- The events whose handlers call `bumpScope` (once each): the wallet
    `chainChanged` handler, the `chainId`-change effect, the Refresh button
    click, and the post-transaction `onChanged` re-check. -/
inductive TriggerEvent where
  | chainChanged
  | chainIdEffect
  | refreshClick
  | postTxRecheck
deriving DecidableEq, Repr

/-- The scope counter after a sequence of triggering events, each of whose
    handlers calls `bumpScope` exactly once. -/
def scopeAfterEvents (evs : List TriggerEvent) (s : Nat) : Nat :=
  evs.foldl (fun acc _ => bumpScope acc) s

/-- C5: the scope counter starts at 0, each bump adds exactly one and never
    decreases it, and after N triggering events the counter equals its value
    before the first event plus N. -/
theorem scope_counter_monotone :
    initialScope = 0 ∧ (∀ s, bumpScope s = s + 1) ∧
      ∀ (evs : List TriggerEvent) (s : Nat),
        scopeAfterEvents evs s = s + evs.length := by
  refine ⟨rfl, fun s => rfl, ?_⟩
  intro evs
  induction evs with
  | nil => intro s; rfl
  | cons e tl ih =>
    intro s
    have h1 : scopeAfterEvents (e :: tl) s = scopeAfterEvents tl (s + 1) := rfl
    rw [h1, ih]
    simp only [List.length_cons]
    omega

/-! Section: the scope-guarded reconciliation pass `refreshInstallState`

`refreshInstallState` (part_014, lines 478-598) captures
`myScope = getScope()` at its start, wraps every state write in
`ifCurrent(fn)` (which re-reads `getScope()` and drops the call unless it
still equals `myScope`), and re-checks `getScope() !== myScope` after every
`await` — also at the top of the `catch` block, after filtering out
`isNetworkChangedError` noise.

The embedding executes the pass against
* an `Oracle` carrying the outcome of each awaited external call (a thrown
  JavaScript error or a value), and
* a schedule `sch : Nat → Nat` giving the value of the shared scope counter
  during each synchronous segment of the pass; segment `k` is the code
  between the `k`-th and `(k+1)`-th `await` (segment 0 contains the capture
  of `myScope`, so `myScope = sch 0`).  The scope counter can only change
  while the pass is suspended, so sampling it per segment is exact.

Segments: 0 = start up to `await validateSafeOnChain`; 1 = after validation;
2 = after `getCode(factory)` (also runs the salt-format check); 3 = after
`predictModuleForSafe`; 4 = after `codeExists`; 5 = after `checkEnabled`
(entered only when the module has code).  A rejected `await` lands in the
`catch` block inside the segment that follows the suspension.

The pass returns the list of shared-state writes it performs, each tagged
with the segment in which it was issued. -/

/-- A JavaScript error value as classified by the pass:
    `isNetworkChangedError(e)` and `e.message`. -/
structure JsError where
  networkChanged : Bool
  msg : String
deriving DecidableEq, Repr

/-- Result of an awaited external call: a thrown error or a value. -/
inductive Res (α : Type) where
  | thrown (e : JsError)
  | ok (a : α)
deriving DecidableEq, Repr

/-- Embedding of the `SafeValidationResult` from `validateSafeOnChain` as consumed by the
    pass: `ok`, the failure `reason` string, optional `detail`, and on
    success the owner list and threshold. -/
structure VOut where
  ok : Bool
  reason : String
  detail : Option String
  owners : List Nat
  threshold : Nat
deriving DecidableEq, Repr

/-- The `SafeCheck` state values written by the pass. -/
inductive SafeCheckS where
  | idle
  | checking
  | okS (owners : List Nat) (threshold : Nat)
  | invalid (label : String) (help : Option String)
deriving DecidableEq, Repr

/-- One write to the shared App state: the predicted-module, deployed,
    enabled, validation and status fields.  `wSafeCheckIfChecking` is the
    functional update `setSafeCheck(s => s.status === "checking" ? invalid :
    s)` performed in the catch block. -/
inductive Write where
  | wSafeCheck (v : SafeCheckS)
  | wSafeCheckIfChecking (label : String) (help : Option String)
  | wPredicted (v : String)
  | wDeployed (v : Option Bool)
  | wEnabled (v : Option Bool)
  | wStatus (v : String)
deriving DecidableEq, Repr

/-- Outcomes of the awaited external calls of one pass, in program order,
    together with the synchronously checked inputs (provider presence,
    `ethers.isAddress(safeAddr)`, configured factory, salt format). -/
structure Oracle where
  providerOk : Bool
  addrValid : Bool
  factoryConfigured : Bool
  validation : Res VOut
  factoryCode : Res Bool
  saltOk : Bool
  predictedAddr : Res String
  moduleHasCode : Res Bool
  enabledCheck : Res Bool
deriving DecidableEq, Repr

/-- The error label computed from a failed validation result (the
    `v.reason === ...` chain in the pass). -/
def validationLabel (v : VOut) : String :=
  if v.reason = "invalid_address" then "Invalid address"
  else if v.reason = "no_code" then "Address is not a contract on this network"
  else if v.reason = "not_safe" then
    "This address is not a Gnosis Safe on this network"
  else
    "Validation failed" ++
      (match v.detail with
       | some d => " · " ++ d
       | none => "")

/-- The final status line: `en ? "Module installed" : hasCode ? "Module
    deployed, not enabled" : "Module not deployed"`. -/
def statusText (hasCode en : Bool) : String :=
  if en then "Module installed"
  else if hasCode then "Module deployed, not enabled"
  else "Module not deployed"

/-- Embedding of `ifCurrent(fn)(args)`: re-read the scope in segment `seg` and perform the
    write only if it still equals the captured `myScope`. -/
def emit (sch : Nat → Nat) (myScope seg : Nat) (w : Write) :
    List (Nat × Write) :=
  if sch seg = myScope then [(seg, w)] else []

/-- The `catch` block, entered in segment `seg`: return silently on
    `isNetworkChangedError`, return silently when the scope is stale, else
    perform the five error writes. -/
def catchWrites (sch : Nat → Nat) (myScope seg : Nat) (e : JsError) :
    List (Nat × Write) :=
  if e.networkChanged then []
  else if sch seg ≠ myScope then []
  else
    [(seg, .wSafeCheckIfChecking "Validation failed" (some e.msg)),
     (seg, .wPredicted ""), (seg, .wDeployed none), (seg, .wEnabled none),
     (seg, .wStatus ("Error: " ++ e.msg))]

/-- Segment 5 of the pass, entered only when the module has code: the
    continuation after `await checkEnabled(...)` — guard, `setEnabled(en)`,
    `setStatus(...)`; a rejection lands in the catch block in segment 5. -/
def runEnabledCheck (sch : Nat → Nat) (myScope : Nat) (hasCode : Bool)
    (eChk : Res Bool) : List (Nat × Write) :=
  match eChk with
  | .thrown e => catchWrites sch myScope 5 e
  | .ok en =>
    if sch 5 ≠ myScope then []
    else
      emit sch myScope 5 (.wEnabled (some en)) ++
      emit sch myScope 5 (.wStatus (statusText hasCode en))

/-- Segment 4 of the pass: the continuation after `await codeExists(...)` —
    guard, `setDeployed(hasCode)`, then either the segment-5 enabled check
    (when the module has code) or, synchronously with `en = false`, the
    re-guard at line 573 followed by `setEnabled(false)` / `setStatus`. -/
def runDeployedCheck (sch : Nat → Nat) (myScope : Nat) (mCode : Res Bool)
    (eChk : Res Bool) : List (Nat × Write) :=
  match mCode with
  | .thrown e => catchWrites sch myScope 4 e
  | .ok hasCode =>
    if sch 4 ≠ myScope then []
    else
      emit sch myScope 4 (.wDeployed (some hasCode)) ++
      (if hasCode then runEnabledCheck sch myScope hasCode eChk
       else
        if sch 4 ≠ myScope then []
        else
          emit sch myScope 4 (.wEnabled (some false)) ++
          emit sch myScope 4 (.wStatus (statusText false false)))

/-- Segment 3 of the pass: the continuation after
    `await predictModuleForSafe(...)` — guard, `setPredicted(addr)`, then the
    deployed check. -/
def runPredict (sch : Nat → Nat) (myScope : Nat) (pAddr : Res String)
    (mCode eChk : Res Bool) : List (Nat × Write) :=
  match pAddr with
  | .thrown e => catchWrites sch myScope 3 e
  | .ok addr =>
    if sch 3 ≠ myScope then []
    else emit sch myScope 3 (.wPredicted addr) ++
      runDeployedCheck sch myScope mCode eChk

/-- Segment 2 of the pass: the continuation after
    `await getCode(normalizedFactory)` — guard, throw when the factory has no
    code, the salt format check (both throws land in the catch block in
    segment 2), then address prediction. -/
def runFactoryCode (sch : Nat → Nat) (myScope : Nat) (fCode : Res Bool)
    (saltOk : Bool) (pAddr : Res String) (mCode eChk : Res Bool) :
    List (Nat × Write) :=
  match fCode with
  | .thrown e => catchWrites sch myScope 2 e
  | .ok code =>
    if sch 2 ≠ myScope then []
    else if !code then
      catchWrites sch myScope 2 ⟨false, "Factory not deployed on this network"⟩
    else if !saltOk then
      catchWrites sch myScope 2
        ⟨false, "VITE_INSTALL_SALT must be 0x + 64 hex chars"⟩
    else runPredict sch myScope pAddr mCode eChk

/-- Segment 1 of the pass: the continuation after
    `await validateSafeOnChain(...)` — guard (line 518), the five
    `ifCurrent` writes of a failed validation, or `setSafeCheck(ok)` and the
    factory-code stage. -/
def runValidation (sch : Nat → Nat) (myScope : Nat) (val : Res VOut)
    (fCode : Res Bool) (saltOk : Bool) (pAddr : Res String)
    (mCode eChk : Res Bool) : List (Nat × Write) :=
  match val with
  | .thrown e => catchWrites sch myScope 1 e
  | .ok v =>
    if sch 1 ≠ myScope then []
    else if !v.ok then
      emit sch myScope 1
        (.wSafeCheck (.invalid (validationLabel v) v.detail)) ++
      emit sch myScope 1 (.wPredicted "") ++
      emit sch myScope 1 (.wDeployed none) ++
      emit sch myScope 1 (.wEnabled none) ++
      emit sch myScope 1 (.wStatus (validationLabel v))
    else
      emit sch myScope 1 (.wSafeCheck (.okS v.owners v.threshold)) ++
      runFactoryCode sch myScope fCode saltOk pAddr mCode eChk

/-- Embedding of `refreshInstallState` from part_014, lines 478-598: segment 0 — capture
    `myScope = getScope() = sch 0`, the synchronous provider / address /
    factory checks with their `ifCurrent` writes, `setSafeCheck(checking)`,
    then the awaited stages.  Returns the segment-tagged writes the pass
    performs under schedule `sch` and oracle `o`. -/
def refreshInstallState (sch : Nat → Nat) (o : Oracle) : List (Nat × Write) :=
  if !o.providerOk then
    catchWrites sch (sch 0) 0 ⟨false, "No provider"⟩
  else if !o.addrValid then
    emit sch (sch 0) 0 (.wSafeCheck (.invalid "Invalid address" none)) ++
    emit sch (sch 0) 0 (.wPredicted "") ++
    emit sch (sch 0) 0 (.wDeployed none) ++
    emit sch (sch 0) 0 (.wEnabled none) ++
    emit sch (sch 0) 0 (.wStatus "Enter a valid Safe address")
  else if !o.factoryConfigured then
    emit sch (sch 0) 0
      (.wSafeCheck (.invalid "Factory not configured for this network" none)) ++
    emit sch (sch 0) 0 (.wPredicted "") ++
    emit sch (sch 0) 0 (.wDeployed none) ++
    emit sch (sch 0) 0 (.wEnabled none) ++
    emit sch (sch 0) 0 (.wStatus "Factory not configured for this network")
  else
    emit sch (sch 0) 0 (.wSafeCheck .checking) ++
    runValidation sch (sch 0) o.validation o.factoryCode o.saltOk
      o.predictedAddr o.moduleHasCode o.enabledCheck

/-- Every element of an `emit` list carries the current scope. -/
theorem mem_emit_scope {sch : Nat → Nat} {myScope seg : Nat} {w : Write}
    {p : Nat × Write} (h : p ∈ emit sch myScope seg w) :
    sch p.1 = myScope := by
  unfold emit at h
  split at h
  · rcases List.mem_singleton.mp h with rfl
    assumption
  · simp at h

/-- Every element of a `catchWrites` list carries the current scope. -/
theorem mem_catchWrites_scope {sch : Nat → Nat} {myScope seg : Nat}
    {e : JsError} {p : Nat × Write} (h : p ∈ catchWrites sch myScope seg e) :
    sch p.1 = myScope := by
  unfold catchWrites at h
  split at h
  · simp at h
  · split at h
    · simp at h
    · rename_i hcur
      push_neg at hcur
      simp only [List.mem_cons, List.not_mem_nil, or_false] at h
      rcases h with rfl | rfl | rfl | rfl | rfl <;> exact hcur

/-- Every element emitted by segment 5 carries the current scope. -/
theorem mem_runEnabledCheck_scope {sch : Nat → Nat} {myScope : Nat}
    {hasCode : Bool} {eChk : Res Bool} {p : Nat × Write}
    (h : p ∈ runEnabledCheck sch myScope hasCode eChk) :
    sch p.1 = myScope := by
  unfold runEnabledCheck at h
  split at h
  · exact mem_catchWrites_scope h
  · split at h
    · simp at h
    · rcases List.mem_append.mp h with h | h <;> exact mem_emit_scope h

/-- Every element emitted by segment 4 carries the current scope. -/
theorem mem_runDeployedCheck_scope {sch : Nat → Nat} {myScope : Nat}
    {mCode eChk : Res Bool} {p : Nat × Write}
    (h : p ∈ runDeployedCheck sch myScope mCode eChk) :
    sch p.1 = myScope := by
  unfold runDeployedCheck at h
  split at h
  · exact mem_catchWrites_scope h
  · split at h
    · simp at h
    · rcases List.mem_append.mp h with h | h
      · exact mem_emit_scope h
      · split at h
        · exact mem_runEnabledCheck_scope h
        · rcases List.mem_append.mp h with h | h <;> exact mem_emit_scope h

/-- Every element emitted by segment 3 carries the current scope. -/
theorem mem_runPredict_scope {sch : Nat → Nat} {myScope : Nat}
    {pAddr : Res String} {mCode eChk : Res Bool} {p : Nat × Write}
    (h : p ∈ runPredict sch myScope pAddr mCode eChk) :
    sch p.1 = myScope := by
  unfold runPredict at h
  split at h
  · exact mem_catchWrites_scope h
  · split at h
    · simp at h
    · rcases List.mem_append.mp h with h | h
      · exact mem_emit_scope h
      · exact mem_runDeployedCheck_scope h

/-- Every element emitted by segment 2 carries the current scope. -/
theorem mem_runFactoryCode_scope {sch : Nat → Nat} {myScope : Nat}
    {fCode : Res Bool} {saltOk : Bool} {pAddr : Res String}
    {mCode eChk : Res Bool} {p : Nat × Write}
    (h : p ∈ runFactoryCode sch myScope fCode saltOk pAddr mCode eChk) :
    sch p.1 = myScope := by
  unfold runFactoryCode at h
  split at h
  · exact mem_catchWrites_scope h
  · split at h
    · simp at h
    · split at h
      · exact mem_catchWrites_scope h
      · split at h
        · exact mem_catchWrites_scope h
        · exact mem_runPredict_scope h

/-- Every element emitted by segment 1 carries the current scope. -/
theorem mem_runValidation_scope {sch : Nat → Nat} {myScope : Nat}
    {val : Res VOut} {fCode : Res Bool} {saltOk : Bool} {pAddr : Res String}
    {mCode eChk : Res Bool} {p : Nat × Write}
    (h : p ∈ runValidation sch myScope val fCode saltOk pAddr mCode eChk) :
    sch p.1 = myScope := by
  unfold runValidation at h
  split at h
  · exact mem_catchWrites_scope h
  · split at h
    · simp at h
    · split at h
      · rcases List.mem_append.mp h with h | h
        · rcases List.mem_append.mp h with h | h
          · rcases List.mem_append.mp h with h | h
            · rcases List.mem_append.mp h with h | h <;> exact mem_emit_scope h
            · exact mem_emit_scope h
          · exact mem_emit_scope h
        · exact mem_emit_scope h
      · rcases List.mem_append.mp h with h | h
        · exact mem_emit_scope h
        · exact mem_runFactoryCode_scope h

/-- Every write performed by a pass is issued at a point where the scope
    still equals the captured `sch 0`. -/
theorem refreshInstallState_mem_current (sch : Nat → Nat) (o : Oracle)
    (p : Nat × Write) (h : p ∈ refreshInstallState sch o) :
    sch p.1 = sch 0 := by
  unfold refreshInstallState at h
  split at h
  · exact mem_catchWrites_scope h
  · split at h
    · rcases List.mem_append.mp h with h | h
      · rcases List.mem_append.mp h with h | h
        · rcases List.mem_append.mp h with h | h
          · rcases List.mem_append.mp h with h | h <;> exact mem_emit_scope h
          · exact mem_emit_scope h
        · exact mem_emit_scope h
      · exact mem_emit_scope h
    · split at h
      · rcases List.mem_append.mp h with h | h
        · rcases List.mem_append.mp h with h | h
          · rcases List.mem_append.mp h with h | h
            · rcases List.mem_append.mp h with h | h <;> exact mem_emit_scope h
            · exact mem_emit_scope h
          · exact mem_emit_scope h
        · exact mem_emit_scope h
      · rcases List.mem_append.mp h with h | h
        · exact mem_emit_scope h
        · exact mem_runValidation_scope h

/-- C1: a pass that captured scope `sch 0` performs no write — neither a
    state write nor an error-status write — in any segment where the scope
    counter has been bumped past the captured value; the stale result is
    silently dropped. -/
theorem refreshInstallState_drops_stale (sch : Nat → Nat) (o : Oracle)
    (seg : Nat) (w : Write) (h : sch 0 < sch seg) :
    (seg, w) ∉ refreshInstallState sch o := by
  intro hmem
  have := refreshInstallState_mem_current sch o (seg, w) hmem
  simp only at this
  omega

/-- Witness for `refreshInstallState_drops_stale`: a pass started at scope 0
    with every external call succeeding, while the scope is bumped to 7 from
    segment 1 on, performs no write in segment 1. -/
theorem refreshInstallState_drops_stale_witness :
    ((fun i => if i = 0 then 0 else 7) : Nat → Nat) 0 <
        ((fun i => if i = 0 then 0 else 7) : Nat → Nat) 1 ∧
      (1, Write.wSafeCheck (.okS [5] 1)) ∉
        refreshInstallState (fun i => if i = 0 then 0 else 7)
          ⟨true, true, true, .ok ⟨true, "", none, [5], 1⟩, .ok true, true,
            .ok "0xabc", .ok true, .ok true⟩ :=
  ⟨by decide,
    refreshInstallState_drops_stale (fun i => if i = 0 then 0 else 7)
      ⟨true, true, true, .ok ⟨true, "", none, [5], 1⟩, .ok true, true,
        .ok "0xabc", .ok true, .ok true⟩ 1 (Write.wSafeCheck (.okS [5] 1))
      (by decide)⟩

end AppMain
